import Mathlib

/-!
# Verification of the vesu-liquidator monitoring/liquidation core

Shallow embedding of the position data model and the liquidation-decision
functions of the `vesu-liquidator` repository.

Modelling conventions, used throughout:
* `Felt` (a Starknet field element, used only as an opaque identity here) is
  modelled as `ℕ`.
* `BigDecimal` (arbitrary-precision decimal) is modelled as `ℚ`.  All products
  and exact quotients of decimals are represented exactly; `BigDecimal`
  division by zero panics in the source, which the embedding tracks
  explicitly (see `RustResult`).
* A `HashMap` used as a read-only cache is modelled as an association list
  queried with `List.lookup`, and remote per-asset price fetches as a
  function `String → Option ℚ` (`none` = fetch failed / price absent).
* A Rust call that can panic is modelled with `RustResult`: `panicked` for a
  panic (`expect`/`unwrap`, integer or decimal division by zero, failed
  `assert!`), `err` for a returned `anyhow::Error`, `ok` for a normal return.
* `u128` arithmetic is modelled on `ℕ` with explicit `% 2 ^ 128` where the
  release-profile wrapping semantics matters, and `i128` on `ℤ` likewise.
-/

/-- Outcome of a fallible Rust computation: `panicked` models a process panic,
`err` a returned `Err(..)`, `ok` a normal return. -/
inductive RustResult (α : Type) where
  | panicked : RustResult α
  | err : String → RustResult α
  | ok : α → RustResult α
deriving DecidableEq, Repr

/-- Starknet field element, used by the liquidator purely as an identifier. -/
abbrev Felt := ℕ

/-- `Asset` from `src/types/asset.rs`: a configured token with its current
raw amount (rescaled by `decimals`). -/
structure Asset where
  name : String
  address : Felt
  amount : ℚ
  decimals : Int
deriving DecidableEq, Repr

/-- `Asset::new` (src/types/asset.rs): fresh asset with a zero amount. -/
def Asset.new (name : String) (address : Felt) (decimals : Int) : Asset :=
  { name := name, address := address, amount := 0, decimals := decimals }

/-- One configured asset entry of `Config.asset_map` (src/config.rs). -/
structure ConfigAsset where
  ticker : String
  decimals : Int
deriving DecidableEq, Repr

/-- The part of `Config` (src/config.rs) the indexer path uses: the
address → asset metadata map, modelled as a function. -/
structure Config where
  asset_map : Felt → Option ConfigAsset

/-- `Config::get_asset_ticker_for_address` (src/config.rs). -/
def Config.get_asset_ticker_for_address (c : Config) (address : Felt) : Option String :=
  (c.asset_map address).map (fun a => a.ticker)

/-- `Config::get_decimal_for_address` (src/config.rs). -/
def Config.get_decimal_for_address (c : Config) (address : Felt) : Option Int :=
  (c.asset_map address).map (fun a => a.decimals)

/-- `Asset::from_address` (src/types/asset.rs): resolve an address to the
configured ticker/decimals, `None` when either lookup misses. -/
def Asset.from_address (c : Config) (address : Felt) : Option Asset :=
  match c.get_asset_ticker_for_address address, c.get_decimal_for_address address with
  | some name, some decimals => some (Asset.new name address decimals)
  | _, _ => none

/-- `Position` from `src/types/position.rs`. -/
structure Position where
  user_address : Felt
  pool_id : Felt
  collateral : Asset
  debt : Asset
  lltv : ℚ
deriving DecidableEq, Repr

/-- `Position::from_event` (src/types/position.rs lines 80-97): build a
position from the indexed key fields of a `ModifyPosition` event
(`keys[1]` = pool id, `keys[2]` = collateral address, `keys[3]` = debt
address, `keys[4]` = user address); the `lltv` starts at
`BigDecimal::default()` (zero).  The source indexes the slice directly; the
embedding uses `getD` (the claims under verification only concern events
carrying all five keys). -/
def Position.from_event (c : Config) (event_keys : List Felt) : Option Position :=
  match Asset.from_address c (event_keys.getD 2 0),
        Asset.from_address c (event_keys.getD 3 0) with
  | some collateral, some debt =>
      some { pool_id := event_keys.getD 1 0
             collateral := collateral
             debt := debt
             user_address := event_keys.getD 4 0
             lltv := 0 }
  | _, _ => none

/-- Rust `str::to_lowercase`, character by character. -/
def to_lowercase (s : String) : String :=
  String.mk (s.data.map Char.toLower)

/-- The oracle price cache `LatestOraclePrices` (ticker → latest USD price),
queried by `Position::ltv`: a `HashMap<String, BigDecimal>` modelled as an
association list. -/
abbrev LatestOraclePrices := List (String × ℚ)

/-- `Position::ltv` (src/types/position.rs lines 100-117): look up both USD
prices in the cache (lowercased ticker), `Err` when either is absent, then
`(debt.amount * debt_price) / (collateral.amount * collateral_price)`.
`BigDecimal` division panics when the divisor is zero, which the embedding
reports as `panicked`. -/
def Position.ltv (p : Position) (oracle_prices : LatestOraclePrices) : RustResult ℚ :=
  match oracle_prices.lookup (to_lowercase p.collateral.name) with
  | none => .err "Price not found for collateral"
  | some collateral_price =>
    match oracle_prices.lookup (to_lowercase p.debt.name) with
    | none => .err "Price not found for debt"
    | some debt_price =>
      if p.collateral.amount * collateral_price = 0 then .panicked
      else .ok ((p.debt.amount * debt_price) / (p.collateral.amount * collateral_price))

/-- `Position::is_closed` (src/types/position.rs lines 167-169). -/
def Position.is_closed (p : Position) : Bool :=
  decide (p.collateral.amount = 0) && decide (p.debt.amount = 0)

/-- `Position::is_liquidable` (src/types/position.rs lines 172-183):
`ltv(..).expect(..)` — a panic (`none`) when `ltv` returns `Err` or itself
panics — then the strict comparison `ltv_ratio > self.lltv`. -/
def Position.is_liquidable (p : Position) (oracle_prices : LatestOraclePrices) :
    Option Bool :=
  match p.ltv oracle_prices with
  | .ok ltv_ratio => some (decide (ltv_ratio > p.lltv))
  | _ => none

/-- `MonitoringService::is_liquidable` (src/services/monitoring.rs lines
121-142): fetches both dollar prices through the oracle client (modelled as
`String → Option ℚ`, `none` = failed fetch), computes the same ltv quotient
(`Position::ltv` of src/types.rs lines 64-75, inlined here), panics via
`.expect` on a failed fetch and via `BigDecimal` division on a zero divisor,
and finally compares `ltv_ratio > position.lltv`. -/
def MonitoringService.is_liquidable (oracle : String → Option ℚ) (p : Position) :
    Option Bool :=
  match oracle (to_lowercase p.collateral.name), oracle (to_lowercase p.debt.name) with
  | some collateral_price, some debt_price =>
      if p.collateral.amount * collateral_price = 0 then none
      else some (decide ((p.debt.amount * debt_price) / (p.collateral.amount * collateral_price) > p.lltv))
  | _, _ => none

/-- The per-position body of `MonitoringService::update_and_monitor_health`
(src/services/monitoring.rs lines 101-119) applied to the already-updated
position snapshot: closed positions are skipped before any eligibility
evaluation, the rest are reported when `is_liquidable` returns `true`.
The returned list is the set of positions reported liquidatable this sweep. -/
def MonitoringService.sweep_reports (oracle : String → Option ℚ)
    (positions : List Position) : List Position :=
  positions.filter (fun p =>
    if p.is_closed then false
    else decide (MonitoringService.is_liquidable oracle p = some true))

/-- `Position::as_update_calldata` (src/types/position.rs lines 228-235). -/
def Position.as_update_calldata (p : Position) : List Felt :=
  [p.pool_id, p.collateral.address, p.debt.address, p.user_address]

/-- `Position::key` (src/types/position.rs lines 238-242): hash of the update
calldata.  `std::hash::DefaultHasher` is a fixed deterministic hash of the
fed data; the property at stake is only that the key is a function of
exactly the four identity fields, so the hasher is a parameter here. -/
def Position.key (hasher : List Felt → ℕ) (p : Position) : ℕ :=
  hasher p.as_update_calldata

/-- `LiquidationMode` (referenced from src/types/position.rs; `Full` runs the
entire-collateral branch of `liquidable_amount`).  Modelled from the spec:
the enum's defining module is not among the provided sources; the spec
describes the two modes "full" and "partial", `Part` standing for the
latter. -/
inductive LiquidationMode where
  | Full : LiquidationMode
  | Part : LiquidationMode
deriving DecidableEq, Repr

/-- Modelled from the spec: `LiquidationMode::as_bool` (its defining module is
not among the provided sources) selects the "full" branch of
`liquidable_amount`, so it is `true` exactly for full mode. -/
def LiquidationMode.as_bool : LiquidationMode → Bool
  | .Full => true
  | .Part => false

/-- Modelled from the spec: `apply_overhead` (imported by src/types/position.rs
from `crate::utils`, whose defining module is not among the provided
sources) scales a value "by a fixed overhead multiplier (2%)". -/
def apply_overhead (x : ℚ) : ℚ :=
  x * (102 / 100)

/-- `BigDecimal::round(round_digits)`: round to `digits` decimal places using
the crate's default half-to-even rounding.  Only the partial-liquidation
branch of `liquidable_amount` uses it. -/
def bigdecimal_round (digits : Int) (x : ℚ) : ℚ :=
  let scaled : ℚ := x * (10 : ℚ) ^ digits
  let down : ℤ := ⌊scaled⌋
  let frac : ℚ := scaled - down
  let n : ℤ :=
    if frac < 1 / 2 then down
    else if 1 / 2 < frac then down + 1
    else if down % 2 = 0 then down else down + 1
  (n : ℚ) / (10 : ℚ) ^ digits

/-- `Position::liquidable_amount` (src/types/position.rs lines 121-164):
look up both prices (`Err` when absent); in full mode return the whole
collateral USD value with 2% overhead, converted to debt-asset and
collateral-asset units; in partial mode solve for the repayment restoring
health factor 1.001, apply the overhead and round to each asset's decimals.
`BigDecimal` division panics on a zero divisor (`panicked`). -/
def Position.liquidable_amount (p : Position) (liquidation_mode : LiquidationMode)
    (oracle_prices : LatestOraclePrices) : RustResult (ℚ × ℚ) :=
  match oracle_prices.lookup (to_lowercase p.collateral.name) with
  | none => .err "Price not found for collateral"
  | some collateral_dollar_price =>
    match oracle_prices.lookup (to_lowercase p.debt.name) with
    | none => .err "Price not found for debt"
    | some debt_dollar_price =>
      let collateral_factor := p.lltv
      let total_collateral_value_in_usd := p.collateral.amount * collateral_dollar_price
      if liquidation_mode.as_bool then
        let overheaded := apply_overhead total_collateral_value_in_usd
        if debt_dollar_price = 0 ∨ collateral_dollar_price = 0 then .panicked
        else .ok (overheaded / debt_dollar_price, overheaded / collateral_dollar_price)
      else
        let current_debt_in_usd := p.debt.amount * debt_dollar_price
        let maximum_health_factor : ℚ := 1001 / 1000
        if collateral_factor - maximum_health_factor = 0 then .panicked
        else
          let liquidation_amount_in_usd :=
            (collateral_factor * total_collateral_value_in_usd
              - maximum_health_factor * current_debt_in_usd)
              / (collateral_factor - maximum_health_factor)
          let liquidation_amount_in_usd := apply_overhead liquidation_amount_in_usd
          if debt_dollar_price = 0 ∨ collateral_dollar_price = 0 then .panicked
          else .ok
            (bigdecimal_round p.debt.decimals (liquidation_amount_in_usd / debt_dollar_price),
             bigdecimal_round p.collateral.decimals
               (liquidation_amount_in_usd / collateral_dollar_price))

/-- The JSON snapshot `StoredData` (src/storages/mod.rs): last indexed block
and the persisted position map.  Serde serializes the `u64` keys as decimal
strings and `JsonStorage::load` parses them back with `key.parse::<u64>()`,
which is lossless for keys written by `save`; the embedding therefore keeps
the keys as naturals and treats per-entry (de)serialization as the
identity. -/
structure StoredData where
  last_block_indexed : ℕ
  positions : List (ℕ × Position)
deriving DecidableEq, Repr

/-- `JsonStorage::save` (src/storages/json.rs lines 63-77): overwrite the
file at the storage path with the serialized snapshot.  The returned value
is the new file content (`Option StoredData`, `none` = no file). -/
def JsonStorage.save (positions : List (ℕ × Position)) (last_block_indexed : ℕ) :
    Option StoredData :=
  some { last_block_indexed := last_block_indexed, positions := positions }

/-- `JsonStorage::load` (src/storages/json.rs lines 27-61): missing file ⇒
`(0, ∅)`; a missing or non-`u64` `last_block_indexed` field is read as 0;
`last_block_indexed == 0` short-circuits to `(0, ∅)` ("no need to go further
if last block indexed is genesis"); otherwise the stored positions are
returned. -/
def JsonStorage.load (file : Option StoredData) : ℕ × List (ℕ × Position) :=
  match file with
  | none => (0, [])
  | some data =>
      if data.last_block_indexed = 0 then (0, [])
      else (data.last_block_indexed, data.positions)

/-- Fixed-point weight scale of src/utils/ekubo.rs (`SCALE`, one unit = 10^18). -/
def SCALE : ℕ := 1000000000000000000

/-- `2 ^ 128`, the modulus of wrapping `u128` arithmetic. -/
def U128_MOD : ℕ := 2 ^ 128

/-- Wrapping `i128` arithmetic on `ℤ` (release-profile overflow semantics). -/
def wrap_i128 (z : ℤ) : ℤ :=
  (z + 2 ^ 127) % 2 ^ 128 - 2 ^ 127

/-- One non-final split's weight in `get_ekubo_route` (src/utils/ekubo.rs line
86): `(split_amount.unsigned_abs() * SCALE) / (total_amount.unsigned_abs())`,
the `u128` product wrapping modulo `2 ^ 128`. -/
def split_weight (total_abs : ℕ) (amount : ℤ) : ℕ :=
  amount.natAbs * SCALE % U128_MOD / total_abs

/-- The weight computation of `get_ekubo_route` (src/utils/ekubo.rs lines
15-119), applied to the `amount_specified` values parsed from the quote
response's splits.  The HTTP fetch, JSON shape checks and the `Swap`/route
structs are external-collaborator plumbing and are not part of the weight
algebra modelled here; `err` covers the no-splits bail, `panicked` the
`u128` division by a zero total and the final `assert!`.  Arithmetic uses
release-profile wrapping semantics (`% 2 ^ 128` on `u128`, `wrap_i128` on
the `i128` total). -/
def get_ekubo_route (amounts : List ℤ) : RustResult (List ℕ) :=
  match amounts with
  | [] => .err "No splits returned from Ekubo API"
  | [_] => .ok [SCALE]
  | _ =>
    let total_amount := wrap_i128 amounts.sum
    if total_amount = 0 then .panicked
    else
      let total_abs := total_amount.natAbs
      let head_weights := amounts.dropLast.map (split_weight total_abs)
      let running_weight_sum :=
        head_weights.foldl (fun acc w => (acc + w) % U128_MOD) 0
      let last_weight := (SCALE + (U128_MOD - running_weight_sum)) % U128_MOD
      let weights := head_weights ++ [last_weight]
      let total_weight := weights.foldl (fun acc w => (acc + w) % U128_MOD) 0
      if total_weight = SCALE then .ok weights else .panicked

/-- The event fields `IndexerService::create_position_from_event` reads:
the emitting address (`None` filtered out) and the indexed key fields. -/
structure RawEvent where
  from_address : Option Felt
  keys : List Felt
deriving DecidableEq, Repr

/-- Result of `Sender::try_send`: `sent` on success, `failed` when the
channel is full or closed (`TrySendError`). -/
inductive SendOutcome where
  | sent : SendOutcome
  | failed : String → SendOutcome
deriving DecidableEq, Repr

/-- Observable outcome of one `create_position_from_event` call:
`skipped` = returned `Ok(())` without forwarding (with the possibly-grown
dedup set), `forwarded` = position sent on the channel, `panicked` = the
process panicked. -/
inductive IndexerStep where
  | skipped : List ℕ → IndexerStep
  | forwarded : ℕ → Position → List ℕ → IndexerStep
  | panicked : IndexerStep
deriving DecidableEq, Repr

/-- `IndexerService::create_position_from_event` (src/services/indexer.rs
lines 150-177).  `update` stands for the on-chain enrichment
`update_position` (amounts and lltv refresh, an opaque remote read),
`send` for the one `try_send` attempt on the position channel, `hasher`
for the key hash as in `Position.key`, `seen` for the `seen_positions`
dedup set (a `HashSet<u64>` as a list).  On a send failure the source runs
`panic!("Could not send position: ..")`. -/
def create_position_from_event (c : Config) (hasher : List Felt → ℕ)
    (update : Position → Position) (send : ℕ × Position → SendOutcome)
    (seen : List ℕ) (block_number : ℕ) (event : RawEvent) : IndexerStep :=
  match event.from_address with
  | none => .skipped seen
  | some _ =>
    if event.keys.getD 3 0 = 0 then .skipped seen
    else
      match Position.from_event c event.keys with
      | none => .skipped seen
      | some new_position =>
        let new_position := update new_position
        if new_position.is_closed then .skipped seen
        else
          let position_key := Position.key hasher new_position
          let seen' := if position_key ∈ seen then seen else position_key :: seen
          match send (block_number, new_position) with
          | .sent => .forwarded block_number new_position seen'
          | .failed _ => .panicked

/-! ## Concrete instances used by witnesses and counterexamples -/

/-- 1 ETH of collateral (18 decimals). -/
def eth_collateral : Asset :=
  { name := "eth", address := 21, amount := 1, decimals := 18 }

/-- 680 USDC of debt (6 decimals). -/
def usdc_debt_680 : Asset :=
  { name := "usdc", address := 22, amount := 680, decimals := 6 }

/-- 700 USDC of debt (6 decimals). -/
def usdc_debt_700 : Asset :=
  { name := "usdc", address := 22, amount := 700, decimals := 6 }

/-- Price cache: ETH at 1000 USD, USDC at 1 USD. -/
def prices_eth1000_usdc1 : LatestOraclePrices := [("eth", 1000), ("usdc", 1)]

/-- Price cache holding the zero sentinel for ETH. -/
def prices_zero_eth : LatestOraclePrices := [("eth", 0), ("usdc", 1)]

/-- Per-asset oracle fetches answering from `prices_eth1000_usdc1`. -/
def oracle_eth1000_usdc1 : String → Option ℚ := fun s => prices_eth1000_usdc1.lookup s

/-- 1 ETH collateral, 680 USDC debt, `lltv = 0.68`: at ETH = 1000 USD its ltv
is exactly its lltv. -/
def position_at_lltv : Position :=
  { user_address := 31, pool_id := 32, collateral := eth_collateral,
    debt := usdc_debt_680, lltv := 17 / 25 }

/-- Position with a zero collateral amount and outstanding debt. -/
def position_zero_collateral : Position :=
  { user_address := 31, pool_id := 32,
    collateral := { eth_collateral with amount := 0 },
    debt := usdc_debt_700, lltv := 17 / 25 }

/-- Position whose lltv still holds the default/unfetched value 0. -/
def position_lltv_zero : Position :=
  { user_address := 31, pool_id := 32, collateral := eth_collateral,
    debt := usdc_debt_700, lltv := 0 }

/-- Closed position: both amounts zero, nonzero lltv. -/
def position_closed : Position :=
  { user_address := 31, pool_id := 32,
    collateral := { eth_collateral with amount := 0 },
    debt := { usdc_debt_700 with amount := 0 }, lltv := 17 / 25 }

/-- `position_at_lltv` with both amounts changed, identity fields untouched. -/
def position_amounts_changed : Position :=
  { position_at_lltv with
    collateral := { eth_collateral with amount := 5 },
    debt := { usdc_debt_680 with amount := 9 } }

/-- A concrete stand-in hash function for `Position.key` witnesses. -/
def sum_hasher : List Felt → ℕ := fun calldata => calldata.sum

/-- Config knowing the assets at addresses 2 (eth) and 3 (usdc). -/
def config_two_assets : Config :=
  { asset_map := fun a =>
      if a = 2 then some { ticker := "eth", decimals := 18 }
      else if a = 3 then some { ticker := "usdc", decimals := 6 }
      else none }

/-- Indexed keys of a `ModifyPosition` event:
`[selector, pool_id, collateral, debt, user]`. -/
def event_keys_modify : List Felt := [0, 1, 2, 3, 4]

/-- A well-formed `ModifyPosition` event from the singleton contract. -/
def raw_event_modify : RawEvent :=
  { from_address := some 9, keys := event_keys_modify }

/-- The position `Position::from_event` builds from `raw_event_modify` under
`config_two_assets`. -/
def position_from_modify_event : Position :=
  { user_address := 4, pool_id := 1,
    collateral := { name := "eth", address := 2, amount := 0, decimals := 18 },
    debt := { name := "usdc", address := 3, amount := 0, decimals := 6 },
    lltv := 0 }

/-- On-chain enrichment giving the position 1 unit of collateral and of debt. -/
def enrich_amounts : Position → Position := fun p =>
  { p with collateral := { p.collateral with amount := 1 },
           debt := { p.debt with amount := 1 } }

/-- A position channel whose `try_send` always fails (full channel). -/
def send_always_full : ℕ × Position → SendOutcome := fun _ => .failed "no available capacity"

/-! ## Helper lemmas -/

/-- Floor division distributes sub-additively over addition. -/
theorem nat_div_add_div_le (a b t : ℕ) : a / t + b / t ≤ (a + b) / t := by
  rcases Nat.eq_zero_or_pos t with ht | ht
  · simp [ht]
  rw [Nat.le_div_iff_mul_le ht, Nat.add_mul]
  exact Nat.add_le_add (Nat.div_mul_le_self a t) (Nat.div_mul_le_self b t)

/-- Summing the floor quotients `a * S' / t` stays below the quotient of the
summed numerators. -/
theorem map_div_sum_le (t S' : ℕ) :
    ∀ l : List ℕ, (l.map (fun a => a * S' / t)).sum ≤ l.sum * S' / t
  | [] => by simp
  | a :: l => by
    simp only [List.map_cons, List.sum_cons]
    calc a * S' / t + (l.map (fun a => a * S' / t)).sum
        ≤ a * S' / t + l.sum * S' / t :=
          Nat.add_le_add_left (map_div_sum_le t S' l) _
      _ ≤ (a * S' + l.sum * S') / t := nat_div_add_div_le _ _ _
      _ = (a + l.sum) * S' / t := by rw [Nat.add_mul]

/-- A wrapping left fold of additions coincides with the plain sum as long as
the total stays below the modulus. -/
theorem foldl_mod_eq_sum (M : ℕ) :
    ∀ (l : List ℕ) (acc : ℕ), acc + l.sum < M →
      l.foldl (fun acc w => (acc + w) % M) acc = acc + l.sum
  | [], acc, _ => by simp
  | w :: l, acc, h => by
    simp only [List.foldl_cons, List.sum_cons] at *
    have hlt : acc + w < M := by omega
    rw [Nat.mod_eq_of_lt hlt, foldl_mod_eq_sum M l (acc + w) (by omega)]
    omega

/-- Summing absolute values of a list of non-negative integers gives the sum. -/
theorem sum_natAbs_eq :
    ∀ l : List ℤ, (∀ a ∈ l, 0 ≤ a) → ((l.map Int.natAbs).sum : ℤ) = l.sum
  | [], _ => by simp
  | a :: l, h => by
    simp only [List.map_cons, List.sum_cons, Nat.cast_add]
    rw [sum_natAbs_eq l (fun x hx => h x (List.mem_cons_of_mem _ hx)),
      Int.natAbs_of_nonneg (h a (List.mem_cons_self _ _))]

/-- Wrapping `i128` arithmetic is the identity inside the representable range. -/
theorem wrap_i128_eq (z : ℤ) (h1 : -(2 ^ 127) ≤ z) (h2 : z < 2 ^ 127) :
    wrap_i128 z = z := by
  unfold wrap_i128
  have e127 : (2 : ℤ) ^ 127 = 170141183460469231731687303715884105728 := by norm_num
  have e128 : (2 : ℤ) ^ 128 = 340282366920938463463374607431768211456 := by norm_num
  rw [e127, e128]
  rw [e127] at h1 h2
  omega

/-- Wrapping subtraction `s - h` on `ℕ` below the modulus is plain truncated
subtraction when `h ≤ s`. -/
theorem mod_wrap_sub (s m h : ℕ) (h1 : h ≤ s) (h2 : s < m) :
    (s + (m - h)) % m = s - h := by
  have heq : s + (m - h) = (s - h) + m := by omega
  rw [heq, Nat.add_mod_right, Nat.mod_eq_of_lt (by omega)]

/-! ## Claim C1 -/

/-- Claim C1, counterexample: the claim asserts eligibility exactly when
`ltv ≥ lltv`, in particular that a position whose ltv equals its lltv is
reported liquidatable.  `position_at_lltv` (1 ETH at 1000 USD collateral,
680 USDC at 1 USD debt, lltv 0.68) has `ltv = 0.68 = lltv`, yet both
eligibility checks return `false`: the source compares with a strict
`ltv_ratio > lltv`. -/
theorem C1_counterexample :
    Position.ltv position_at_lltv prices_eth1000_usdc1
        = RustResult.ok position_at_lltv.lltv
    ∧ Position.is_liquidable position_at_lltv prices_eth1000_usdc1 = some false
    ∧ MonitoringService.is_liquidable oracle_eth1000_usdc1 position_at_lltv = some false := by
  refine ⟨?_, ?_, ?_⟩
  · simp [Position.ltv, position_at_lltv, prices_eth1000_usdc1, eth_collateral,
      usdc_debt_680, to_lowercase, List.lookup]
    norm_num
  · simp [Position.is_liquidable, Position.ltv, position_at_lltv, prices_eth1000_usdc1,
      eth_collateral, usdc_debt_680, to_lowercase, List.lookup]
    norm_num
  · simp [MonitoringService.is_liquidable, oracle_eth1000_usdc1, position_at_lltv,
      prices_eth1000_usdc1, eth_collateral, usdc_debt_680, to_lowercase, List.lookup]
    norm_num

/-- Claim C1, amended: for every tracked position whose collateral and debt
prices are present and strictly positive and whose collateral amount is
nonzero, both eligibility checks return true exactly when
`ltv = (debt.amount × debt_price) / (collateral.amount × collateral_price)`
is strictly greater than `lltv`; a position whose ltv equals its lltv is not
reported liquidatable. -/
theorem C1_theorem (p : Position) (prices : LatestOraclePrices)
    (oracle : String → Option ℚ) (cp dp : ℚ)
    (hc : prices.lookup (to_lowercase p.collateral.name) = some cp)
    (hd : prices.lookup (to_lowercase p.debt.name) = some dp)
    (hoc : oracle (to_lowercase p.collateral.name) = some cp)
    (hod : oracle (to_lowercase p.debt.name) = some dp)
    (hcp : 0 < cp) (hdp : 0 < dp) (hca : p.collateral.amount ≠ 0) :
    Position.is_liquidable p prices
        = some (decide (p.debt.amount * dp / (p.collateral.amount * cp) > p.lltv))
    ∧ MonitoringService.is_liquidable oracle p
        = some (decide (p.debt.amount * dp / (p.collateral.amount * cp) > p.lltv))
    ∧ (p.debt.amount * dp / (p.collateral.amount * cp) = p.lltv →
        Position.is_liquidable p prices = some false) := by
  have hden : p.collateral.amount * cp ≠ 0 := mul_ne_zero hca (ne_of_gt hcp)
  have h1 : Position.is_liquidable p prices
      = some (decide (p.debt.amount * dp / (p.collateral.amount * cp) > p.lltv)) := by
    unfold Position.is_liquidable Position.ltv
    rw [hc, hd]
    dsimp only
    rw [if_neg hden]
  refine ⟨h1, ?_, ?_⟩
  · unfold MonitoringService.is_liquidable
    rw [hoc, hod]
    dsimp only
    rw [if_neg hden]
  · intro heq
    rw [h1, heq]
    simp

/-- Claim C1, witness: `C1_theorem` applied at `position_at_lltv` with the
concrete caches; at `ltv = lltv` both checks produce `some false`. -/
theorem C1_witness :
    Position.is_liquidable position_at_lltv prices_eth1000_usdc1 = some false
    ∧ MonitoringService.is_liquidable oracle_eth1000_usdc1 position_at_lltv = some false := by
  have h := C1_theorem position_at_lltv prices_eth1000_usdc1 oracle_eth1000_usdc1 1000 1
    (by rfl) (by rfl) (by rfl) (by rfl) (by norm_num) (by norm_num)
    (by simp [position_at_lltv, eth_collateral])
  have heq : position_at_lltv.debt.amount * 1
      / (position_at_lltv.collateral.amount * 1000) = position_at_lltv.lltv := by
    simp [position_at_lltv, eth_collateral, usdc_debt_680]
    norm_num
  refine ⟨h.2.2 heq, ?_⟩
  rw [h.2.1, heq]
  simp

/-! ## Claim C2 -/

/-- Claim C2: the claim says that with an absent or zero cached price, or a
zero collateral amount, `Position::is_liquidable` returns false and never
panics.  Evaluating the source at those inputs shows the opposite — all
three produce a panic (`none` in this embedding: the `.expect` on the
missing-price `Err`, and the `BigDecimal` division by the zero denominator),
not the claimed `some false`. -/
theorem C2_theorem :
    Position.is_liquidable position_at_lltv [] = none
    ∧ Position.is_liquidable position_at_lltv prices_zero_eth = none
    ∧ Position.is_liquidable position_zero_collateral prices_eth1000_usdc1 = none := by
  refine ⟨?_, ?_, ?_⟩
  · simp [Position.is_liquidable, Position.ltv, position_at_lltv, eth_collateral,
      usdc_debt_680, to_lowercase, List.lookup]
  · simp [Position.is_liquidable, Position.ltv, position_at_lltv, prices_zero_eth,
      eth_collateral, usdc_debt_680, to_lowercase, List.lookup]
  · simp [Position.is_liquidable, Position.ltv, position_zero_collateral,
      prices_eth1000_usdc1, eth_collateral, usdc_debt_700, to_lowercase, List.lookup]

/-! ## Claim C3 -/

/-- Claim C3: the claim says a position whose lltv still holds the
default/unfetched value 0 is excluded (is_liquidable returns false) until
the lltv is refreshed.  Evaluating the source at `position_lltv_zero`
(lltv = 0, ltv = 0.7) shows both eligibility checks simply compare against
the real threshold 0 and report the position liquidatable. -/
theorem C3_theorem :
    position_lltv_zero.lltv = 0
    ∧ Position.is_liquidable position_lltv_zero prices_eth1000_usdc1 = some true
    ∧ MonitoringService.is_liquidable oracle_eth1000_usdc1 position_lltv_zero = some true := by
  refine ⟨rfl, ?_, ?_⟩
  · simp [Position.is_liquidable, Position.ltv, position_lltv_zero, prices_eth1000_usdc1,
      eth_collateral, usdc_debt_700, to_lowercase, List.lookup]
  · simp [MonitoringService.is_liquidable, oracle_eth1000_usdc1, position_lltv_zero,
      prices_eth1000_usdc1, eth_collateral, usdc_debt_700, to_lowercase, List.lookup]

/-! ## Claim C4 -/

/-- Claim C4: `Position::key` computed twice from the same four identity
fields yields the same value, and two positions that agree on
`(pool_id, collateral.address, debt.address, user_address)` — whatever
their amounts — have equal keys, for any (deterministic) hasher of the
update calldata. -/
theorem C4_theorem (hasher : List Felt → ℕ) (p q : Position)
    (h1 : p.pool_id = q.pool_id) (h2 : p.collateral.address = q.collateral.address)
    (h3 : p.debt.address = q.debt.address) (h4 : p.user_address = q.user_address) :
    Position.key hasher p = Position.key hasher p
    ∧ Position.key hasher p = Position.key hasher q := by
  refine ⟨rfl, ?_⟩
  unfold Position.key Position.as_update_calldata
  rw [h1, h2, h3, h4]

/-- Claim C4, witness: `C4_theorem` at two concrete positions differing only
in their collateral and debt amounts. -/
theorem C4_witness :
    Position.key sum_hasher position_at_lltv = Position.key sum_hasher position_at_lltv
    ∧ Position.key sum_hasher position_at_lltv
        = Position.key sum_hasher position_amounts_changed :=
  C4_theorem sum_hasher position_at_lltv position_amounts_changed rfl rfl rfl rfl

/-! ## Claim C5 -/

/-- Claim C5: a position with both amounts zero is closed, and the monitoring
sweep skips it before any eligibility evaluation — it never appears among
the positions reported liquidatable, regardless of its lltv and of the
prices. -/
theorem C5_theorem (p : Position) (oracle : String → Option ℚ)
    (positions : List Position)
    (hc : p.collateral.amount = 0) (hd : p.debt.amount = 0) :
    p.is_closed = true ∧ p ∉ MonitoringService.sweep_reports oracle positions := by
  have hcl : p.is_closed = true := by
    simp [Position.is_closed, hc, hd]
  refine ⟨hcl, fun hmem => ?_⟩
  have hpred := List.of_mem_filter hmem
  rw [hcl] at hpred
  simp at hpred

/-- Claim C5, witness: `C5_theorem` at the concrete closed position swept
inside a singleton store. -/
theorem C5_witness :
    position_closed.is_closed = true
    ∧ position_closed ∉
        MonitoringService.sweep_reports oracle_eth1000_usdc1 [position_closed] :=
  C5_theorem position_closed oracle_eth1000_usdc1 [position_closed] rfl rfl

/-! ## Claim C6 -/

/-- Claim C6: with both cached prices present and strictly positive,
`Position::liquidable_amount` in full liquidation mode returns exactly
`(1.02 × collateral.amount × collateral_price / debt_price,
1.02 × collateral.amount)` — the whole collateral USD value with the fixed
2% overhead, in debt-asset and collateral-asset units. -/
theorem C6_theorem (p : Position) (prices : LatestOraclePrices) (cp dp : ℚ)
    (hc : prices.lookup (to_lowercase p.collateral.name) = some cp)
    (hd : prices.lookup (to_lowercase p.debt.name) = some dp)
    (hcp : 0 < cp) (hdp : 0 < dp) :
    Position.liquidable_amount p LiquidationMode.Full prices
      = RustResult.ok (102 / 100 * p.collateral.amount * cp / dp,
          102 / 100 * p.collateral.amount) := by
  unfold Position.liquidable_amount
  rw [hc, hd]
  dsimp only
  rw [if_pos (by rfl : LiquidationMode.Full.as_bool = true),
    if_neg (by push_neg; exact ⟨ne_of_gt hdp, ne_of_gt hcp⟩)]
  have h2 : apply_overhead (p.collateral.amount * cp) / cp
      = 102 / 100 * p.collateral.amount := by
    unfold apply_overhead
    field_simp
    ring
  have h1 : apply_overhead (p.collateral.amount * cp) / dp
      = 102 / 100 * p.collateral.amount * cp / dp := by
    unfold apply_overhead
    field_simp
    ring
  rw [h1, h2]

/-- Claim C6, witness: `C6_theorem` at `position_at_lltv` with ETH at
1000 USD and USDC at 1 USD: 1020 USDC-equivalent and 1.02 ETH-equivalent. -/
theorem C6_witness :
    Position.liquidable_amount position_at_lltv LiquidationMode.Full prices_eth1000_usdc1
      = RustResult.ok (1020, 51 / 50) := by
  have h := C6_theorem position_at_lltv prices_eth1000_usdc1 1000 1
    (by rfl) (by rfl) (by norm_num) (by norm_num)
  rw [h]
  norm_num [position_at_lltv, eth_collateral]

/-! ## Claim C7 -/

set_option maxRecDepth 4000 in
/-- Claim C7, counterexample: the claim quantifies over every quote response
with a nonzero total of parsed `amount_specified` values.  For the two-split
response with amounts `[5, -3]` (total 2 ≠ 0) the computed weights are
`[2.5 × 10^18, 2^128 - 1.5 × 10^18]`: the first exceeds the 10^18 unit and
the mathematical sum is not 10^18 — the internal `assert!` passes only
because the `u128` running total wraps around. -/
theorem C7_counterexample :
    get_ekubo_route [5, -3]
      = RustResult.ok [2500000000000000000, 340282366920938463461874607431768211456]
    ∧ (5 : ℤ) + (-3) ≠ 0
    ∧ SCALE < 2500000000000000000
    ∧ 2500000000000000000 + 340282366920938463461874607431768211456 ≠ SCALE := by
  refine ⟨by decide, by decide, by decide, by decide⟩

/-- Claim C7, amended: for every quote response with `N ≥ 1` splits whose
parsed `amount_specified` values are all non-negative, with a nonzero total
small enough that no `u128` overflow occurs (`total × 10^18 < 2^128`),
`get_ekubo_route` returns exactly `N` weights, each a non-negative integer
at most `10^18`, summing to exactly `10^18` — the rounding remainder being
absorbed into the final split's weight (`SCALE` minus the running sum). -/
theorem C7_theorem (amounts : List ℤ) (hne : amounts ≠ [])
    (hpos : ∀ a ∈ amounts, 0 ≤ a) (hnz : amounts.sum ≠ 0)
    (hbound : amounts.sum * (SCALE : ℤ) < 2 ^ 128) :
    ∃ ws, get_ekubo_route amounts = .ok ws
      ∧ ws.length = amounts.length
      ∧ (∀ w ∈ ws, w ≤ SCALE)
      ∧ ws.sum = SCALE := by
  rcases amounts with _ | ⟨a, rest0⟩
  · exact absurd rfl hne
  rcases rest0 with _ | ⟨b, rest⟩
  · refine ⟨[SCALE], rfl, rfl, ?_, by simp⟩
    intro w hw
    rw [List.mem_singleton] at hw
    exact le_of_eq hw
  -- numerals
  have hSZ : ((SCALE : ℕ) : ℤ) = 1000000000000000000 := by norm_num [SCALE]
  have hSM : SCALE < U128_MOD := by norm_num [SCALE, U128_MOD]
  have hU : ((U128_MOD : ℕ) : ℤ) = 2 ^ 128 := by norm_num [U128_MOD]
  have e128 : (2 : ℤ) ^ 128 = 340282366920938463463374607431768211456 := by norm_num
  have e127 : (2 : ℤ) ^ 127 = 170141183460469231731687303715884105728 := by norm_num
  -- sum facts over ℤ
  have hsum0 : 0 ≤ (a :: b :: rest).sum := List.sum_nonneg hpos
  have hsum4 : (a :: b :: rest).sum * 4 ≤ (a :: b :: rest).sum * (SCALE : ℤ) :=
    mul_le_mul_of_nonneg_left (by rw [hSZ]; norm_num) hsum0
  have hsum4' : (a :: b :: rest).sum * 4 < 340282366920938463463374607431768211456 := by
    rw [← e128]
    exact lt_of_le_of_lt hsum4 hbound
  have hlt127 : (a :: b :: rest).sum < 2 ^ 127 := by
    rw [e127]
    omega
  have hwrap : wrap_i128 (a :: b :: rest).sum = (a :: b :: rest).sum :=
    wrap_i128_eq _ (le_trans (by norm_num) hsum0) hlt127
  -- the divisor
  have htZ : (((a :: b :: rest).sum.natAbs : ℕ) : ℤ) = (a :: b :: rest).sum :=
    Int.natAbs_of_nonneg hsum0
  have ht0 : 0 < (a :: b :: rest).sum.natAbs := Int.natAbs_pos.mpr hnz
  -- members of dropLast
  have hmem_amts : ∀ x ∈ (a :: b :: rest).dropLast, x ∈ (a :: b :: rest) :=
    fun x hx => (List.dropLast_sublist _).subset hx
  have hmem0 : ∀ x ∈ (a :: b :: rest).dropLast, 0 ≤ x :=
    fun x hx => hpos x (hmem_amts x hx)
  have hmemle : ∀ x ∈ (a :: b :: rest).dropLast, x ≤ (a :: b :: rest).sum :=
    fun x hx => List.single_le_sum hpos x (hmem_amts x hx)
  have hmemleN : ∀ x ∈ (a :: b :: rest).dropLast,
      x.natAbs ≤ (a :: b :: rest).sum.natAbs := by
    intro x hx
    have h1 := hmem0 x hx
    have h2 := hmemle x hx
    omega
  -- pointwise: no u128 wrap in the weight products
  have hweight : ∀ x ∈ (a :: b :: rest).dropLast,
      split_weight (a :: b :: rest).sum.natAbs x
        = x.natAbs * SCALE / (a :: b :: rest).sum.natAbs := by
    intro x hx
    unfold split_weight
    have habs : |x| ≤ (a :: b :: rest).sum := by
      rw [abs_of_nonneg (hmem0 x hx)]
      exact hmemle x hx
    have hlt : x.natAbs * SCALE < U128_MOD := by
      zify
      rw [hU]
      exact lt_of_le_of_lt
        (mul_le_mul_of_nonneg_right habs (by rw [hSZ]; norm_num)) hbound
    rw [Nat.mod_eq_of_lt hlt]
  -- sum of dropLast bounded by the total
  have hna_sumZ : (((a :: b :: rest).dropLast.map Int.natAbs).sum : ℤ)
      = (a :: b :: rest).dropLast.sum := sum_natAbs_eq _ hmem0
  have hne2 : (a :: b :: rest) ≠ [] := by simp
  have hdropsum : (a :: b :: rest).dropLast.sum ≤ (a :: b :: rest).sum := by
    have hdec : (a :: b :: rest).dropLast.sum + (a :: b :: rest).getLast hne2
        = (a :: b :: rest).sum := by
      conv_rhs => rw [← List.dropLast_append_getLast hne2]
      rw [List.sum_append]
      simp
    have hlast0 : 0 ≤ (a :: b :: rest).getLast hne2 := hpos _ (List.getLast_mem hne2)
    linarith
  have hna_le : ((a :: b :: rest).dropLast.map Int.natAbs).sum
      ≤ (a :: b :: rest).sum.natAbs := by
    have h : (((a :: b :: rest).dropLast.map Int.natAbs).sum : ℤ)
        ≤ (((a :: b :: rest).sum.natAbs : ℕ) : ℤ) := by
      rw [hna_sumZ, htZ]
      exact hdropsum
    exact_mod_cast h
  -- the head weights list
  have hmap : (a :: b :: rest).dropLast.map (split_weight (a :: b :: rest).sum.natAbs)
      = ((a :: b :: rest).dropLast.map Int.natAbs).map
          (fun x => x * SCALE / (a :: b :: rest).sum.natAbs) := by
    rw [List.map_map]
    exact List.map_congr_left hweight
  have hs_le : (((a :: b :: rest).dropLast.map Int.natAbs).map
      (fun x => x * SCALE / (a :: b :: rest).sum.natAbs)).sum ≤ SCALE := by
    calc (((a :: b :: rest).dropLast.map Int.natAbs).map
        (fun x => x * SCALE / (a :: b :: rest).sum.natAbs)).sum
        ≤ ((a :: b :: rest).dropLast.map Int.natAbs).sum * SCALE
            / (a :: b :: rest).sum.natAbs := map_div_sum_le _ _ _
      _ ≤ (a :: b :: rest).sum.natAbs * SCALE / (a :: b :: rest).sum.natAbs :=
          Nat.div_le_div_right (Nat.mul_le_mul_right _ hna_le)
      _ = SCALE := Nat.mul_div_cancel_left _ ht0
  have hmemW : ∀ w ∈ ((a :: b :: rest).dropLast.map Int.natAbs).map
      (fun x => x * SCALE / (a :: b :: rest).sum.natAbs), w ≤ SCALE := by
    intro w hw
    rcases List.mem_map.mp hw with ⟨x, hx, rfl⟩
    rcases List.mem_map.mp hx with ⟨y, hy, rfl⟩
    calc y.natAbs * SCALE / (a :: b :: rest).sum.natAbs
        ≤ (a :: b :: rest).sum.natAbs * SCALE / (a :: b :: rest).sum.natAbs :=
          Nat.div_le_div_right (Nat.mul_le_mul_right _ (hmemleN y hy))
      _ = SCALE := Nat.mul_div_cancel_left _ ht0
  -- folds
  have hfold1 : (((a :: b :: rest).dropLast.map Int.natAbs).map
      (fun x => x * SCALE / (a :: b :: rest).sum.natAbs)).foldl
        (fun acc w => (acc + w) % U128_MOD) 0
      = (((a :: b :: rest).dropLast.map Int.natAbs).map
          (fun x => x * SCALE / (a :: b :: rest).sum.natAbs)).sum := by
    have h := foldl_mod_eq_sum U128_MOD
      (((a :: b :: rest).dropLast.map Int.natAbs).map
        (fun x => x * SCALE / (a :: b :: rest).sum.natAbs)) 0
      (by rw [Nat.zero_add]; exact lt_of_le_of_lt hs_le hSM)
    rw [h, Nat.zero_add]
  have hlastw : (SCALE + (U128_MOD - (((a :: b :: rest).dropLast.map Int.natAbs).map
      (fun x => x * SCALE / (a :: b :: rest).sum.natAbs)).sum)) % U128_MOD
      = SCALE - (((a :: b :: rest).dropLast.map Int.natAbs).map
          (fun x => x * SCALE / (a :: b :: rest).sum.natAbs)).sum :=
    mod_wrap_sub _ _ _ hs_le hSM
  have hWsum : ((((a :: b :: rest).dropLast.map Int.natAbs).map
      (fun x => x * SCALE / (a :: b :: rest).sum.natAbs))
        ++ [SCALE - (((a :: b :: rest).dropLast.map Int.natAbs).map
          (fun x => x * SCALE / (a :: b :: rest).sum.natAbs)).sum]).sum = SCALE := by
    rw [List.sum_append, List.sum_singleton]
    exact Nat.add_sub_cancel' hs_le
  have hfold2 : ((((a :: b :: rest).dropLast.map Int.natAbs).map
      (fun x => x * SCALE / (a :: b :: rest).sum.natAbs))
        ++ [SCALE - (((a :: b :: rest).dropLast.map Int.natAbs).map
          (fun x => x * SCALE / (a :: b :: rest).sum.natAbs)).sum]).foldl
        (fun acc w => (acc + w) % U128_MOD) 0 = SCALE := by
    have h := foldl_mod_eq_sum U128_MOD
      ((((a :: b :: rest).dropLast.map Int.natAbs).map
        (fun x => x * SCALE / (a :: b :: rest).sum.natAbs))
          ++ [SCALE - (((a :: b :: rest).dropLast.map Int.natAbs).map
            (fun x => x * SCALE / (a :: b :: rest).sum.natAbs)).sum]) 0
      (by rw [Nat.zero_add, hWsum]; exact hSM)
    rw [h, Nat.zero_add, hWsum]
  refine ⟨(((a :: b :: rest).dropLast.map Int.natAbs).map
      (fun x => x * SCALE / (a :: b :: rest).sum.natAbs))
        ++ [SCALE - (((a :: b :: rest).dropLast.map Int.natAbs).map
          (fun x => x * SCALE / (a :: b :: rest).sum.natAbs)).sum], ?_, ?_, ?_, hWsum⟩
  · simp only [get_ekubo_route]
    rw [hwrap, if_neg hnz, hmap, hfold1, hlastw, hfold2, if_pos rfl]
  · simp [List.length_dropLast]
  · intro w hw
    rcases List.mem_append.mp hw with hw1 | hw2
    · exact hmemW w hw1
    · rw [List.mem_singleton] at hw2
      subst hw2
      omega

/-- Claim C7, witness: `C7_theorem` at the two-split response `[7, 3]`. -/
theorem C7_witness :
    ∃ ws, get_ekubo_route [7, 3] = .ok ws
      ∧ ws.length = 2 ∧ (∀ w ∈ ws, w ≤ SCALE) ∧ ws.sum = SCALE := by
  have h := C7_theorem [7, 3] (by decide) (by decide) (by decide)
    (by norm_num [SCALE])
  simpa using h

/-! ## Claim C8 -/

/-- Claim C8, counterexample: the claim quantifies over every
`last_block_indexed` value.  Saving one position with
`last_block_indexed = 0` and loading it back returns `(0, ∅)` — `load`
short-circuits on a zero block and the saved positions are not reproduced. -/
theorem C8_counterexample :
    JsonStorage.load (JsonStorage.save [(1, position_at_lltv)] 0) = (0, [])
    ∧ JsonStorage.load (JsonStorage.save [(1, position_at_lltv)] 0)
        ≠ (0, [(1, position_at_lltv)]) := by
  refine ⟨rfl, ?_⟩
  intro h
  simp [JsonStorage.load, JsonStorage.save] at h

/-- Claim C8, amended: for every map of positions and every nonzero
`last_block_indexed`, `JsonStorage::save` followed by `JsonStorage::load` on
the same path returns an equal set of positions and the same
`last_block_indexed`; a `last_block_indexed` of 0 is instead treated as "no
prior state" and the saved positions are discarded on load. -/
theorem C8_theorem (positions : List (ℕ × Position)) (last_block_indexed : ℕ)
    (h : last_block_indexed ≠ 0) :
    JsonStorage.load (JsonStorage.save positions last_block_indexed)
      = (last_block_indexed, positions) := by
  simp [JsonStorage.load, JsonStorage.save, h]

/-- Claim C8, witness: `C8_theorem` at a one-position snapshot saved at
block 42. -/
theorem C8_witness :
    JsonStorage.load (JsonStorage.save [(1, position_at_lltv)] 42)
      = (42, [(1, position_at_lltv)]) :=
  C8_theorem [(1, position_at_lltv)] 42 (by decide)

/-! ## Claim C9 -/

/-- Claim C9, counterexample: the claim says a failed channel send is logged
and the indexer continues.  Running `create_position_from_event` on a fully
valid event against a full channel instead reaches the
`panic!("Could not send position: ..")` arm: the indexer process dies. -/
theorem C9_counterexample :
    create_position_from_event config_two_assets sum_hasher enrich_amounts
      send_always_full [] 99 raw_event_modify = IndexerStep.panicked := by
  rfl

/-- Claim C9, amended: for every event that passes the filters (emitting
address present, nonzero debt asset, configured assets, not closed after
enrichment) whose single non-blocking `try_send` on the position channel
fails (channel full or closed), the indexer panics — it never blocks or
retries the send, but neither does it log and continue. -/
theorem C9_theorem (c : Config) (hasher : List Felt → ℕ)
    (update : Position → Position) (send : ℕ × Position → SendOutcome)
    (seen : List ℕ) (block_number : ℕ) (event : RawEvent) (addr : Felt)
    (hfrom : event.from_address = some addr)
    (hdebt : event.keys.getD 3 0 ≠ 0) (p0 : Position)
    (hpos : Position.from_event c event.keys = some p0)
    (hopen : (update p0).is_closed = false) (msg : String)
    (hsend : send (block_number, update p0) = .failed msg) :
    create_position_from_event c hasher update send seen block_number event
      = IndexerStep.panicked := by
  unfold create_position_from_event
  rw [hfrom]
  dsimp only
  rw [if_neg hdebt, hpos]
  dsimp only
  simp only [hopen, Bool.false_eq_true, if_false]
  rw [hsend]

/-- Claim C9, witness: `C9_theorem` at the concrete `ModifyPosition` event,
enrichment and full channel of `C9_counterexample`, with a nonempty dedup
set. -/
theorem C9_witness :
    create_position_from_event config_two_assets sum_hasher enrich_amounts
      send_always_full [7] 99 raw_event_modify = IndexerStep.panicked :=
  C9_theorem config_two_assets sum_hasher enrich_amounts send_always_full [7] 99
    raw_event_modify 9 rfl (by decide) position_from_modify_event rfl
    (by simp [enrich_amounts, position_from_modify_event, Position.is_closed])
    "no available capacity" rfl

/-! ## Claim C10 -/

/-- Claim C10: every `Asset` built by `Asset::new` or `Asset::from_address`
has a zero amount, and every position returned by `Position::from_event`
has zero collateral and debt amounts and the sentinel `lltv = 0` — hence a
freshly event-built position satisfies `is_closed` until enriched. -/
theorem C10_theorem :
    (∀ (name : String) (address : Felt) (decimals : Int),
        (Asset.new name address decimals).amount = 0)
    ∧ (∀ (c : Config) (address : Felt) (a : Asset),
        Asset.from_address c address = some a → a.amount = 0)
    ∧ (∀ (c : Config) (event_keys : List Felt) (p : Position),
        Position.from_event c event_keys = some p →
          p.collateral.amount = 0 ∧ p.debt.amount = 0 ∧ p.lltv = 0
          ∧ p.is_closed = true) := by
  have hnew : ∀ (name : String) (address : Felt) (decimals : Int),
      (Asset.new name address decimals).amount = 0 := fun _ _ _ => rfl
  have hfrom : ∀ (c : Config) (address : Felt) (a : Asset),
      Asset.from_address c address = some a → a.amount = 0 := by
    intro c address a h
    unfold Asset.from_address at h
    rcases hn : c.get_asset_ticker_for_address address with _ | name <;> rw [hn] at h
    · exact absurd h (by simp)
    rcases hdec : c.get_decimal_for_address address with _ | d <;> rw [hdec] at h
    · exact absurd h (by simp)
    dsimp only at h
    rw [Option.some.injEq] at h
    rw [← h]
    exact hnew name address d
  refine ⟨hnew, hfrom, ?_⟩
  intro c event_keys p h
  unfold Position.from_event at h
  rcases hcol : Asset.from_address c (event_keys.getD 2 0) with _ | col <;> rw [hcol] at h
  · exact absurd h (by simp)
  rcases hdebt : Asset.from_address c (event_keys.getD 3 0) with _ | d <;> rw [hdebt] at h
  · exact absurd h (by simp)
  dsimp only at h
  rw [Option.some.injEq] at h
  have hca := hfrom c (event_keys.getD 2 0) col hcol
  have hda := hfrom c (event_keys.getD 3 0) d hdebt
  subst h
  refine ⟨hca, hda, rfl, ?_⟩
  simp [Position.is_closed, hca, hda]

/-- Claim C10, witness: `C10_theorem` at `Asset.new "eth" 2 18` and at the
position built from the concrete `ModifyPosition` event keys under
`config_two_assets`. -/
theorem C10_witness :
    (Asset.new "eth" 2 18).amount = 0
    ∧ Position.from_event config_two_assets event_keys_modify
        = some position_from_modify_event
    ∧ position_from_modify_event.collateral.amount = 0
    ∧ position_from_modify_event.debt.amount = 0
    ∧ position_from_modify_event.lltv = 0
    ∧ position_from_modify_event.is_closed = true := by
  have h := C10_theorem.2.2 config_two_assets event_keys_modify
    position_from_modify_event rfl
  exact ⟨C10_theorem.1 "eth" 2 18, rfl, h.1, h.2.1, h.2.2.1, h.2.2.2⟩
